import Mathlib

/-!
Verification of the ATS-Scorer resilient API request pipeline.

This file is a shallow embedding, in Lean 4, of the JavaScript modules
`src/utils/apiHelpers.js` (rate-limited, retrying request pipeline),
`src/utils/transformers.js` (response validation and transformation,
the variant shipped in the repository), and `src/utils/apiKeyUtils.js`
(credential validation), together with theorems settling the frozen
claims about them.

Modelling conventions:
- JavaScript values are modelled by the inductive `JsValue`; numbers are
  modelled by `Int` (every numeric literal relevant to the claims is an
  integer) with a separate `vNaN` constructor so the `isNaN` check in the
  source is representable.
- JavaScript objects are association lists; property assignment is
  `objSet` (overwrite the first matching key, else append), property read
  is `lookupField`, and reading a property of `null`/`undefined` is a
  thrown `TypeError`, modelled with `Except`.
- `JSON.parse` is kept abstract: functions that call it take a
  `jsonParse : String → Except String JsValue` parameter, so theorems
  quantify over every possible parse behaviour.
- Promise-based control flow is modelled by explicit outcomes: the
  `Outcome` type distinguishes a promise that resolved, one that was
  rejected, and one that never settles because an exception escaped the
  async callback handed to `operation.attempt` (an unhandled rejection).
- The Bottleneck rate limiter only delays execution; `limiter.schedule`
  is therefore modelled as running the scheduled thunk directly, and the
  per-attempt result of `requestFn` is supplied as a function
  `results : Nat → Except JsError JsValue` from attempt number (starting
  at 1, as in the `retry` npm package) to the settled result.
-/

namespace ATS

/-- Model of a JavaScript (JSON-decoded) runtime value. -/
inductive JsValue where
  | vUndefined : JsValue
  | vNull : JsValue
  | vNaN : JsValue
  | vBool : Bool → JsValue
  | vNum : Int → JsValue
  | vStr : String → JsValue
  | vArr : List JsValue → JsValue
  | vObj : List (String × JsValue) → JsValue

/-- First-match lookup of a key in an association-list object. -/
def lookupField : List (String × JsValue) → String → Option JsValue
  | [], _ => none
  | (k, v) :: rest, key => if k = key then some v else lookupField rest key

/-- JavaScript property assignment `obj[key] = v`: overwrite the first
occurrence of the key, otherwise append the binding. -/
def objSet : List (String × JsValue) → String → JsValue → List (String × JsValue)
  | [], key, v => [(key, v)]
  | (k, w) :: rest, key, v =>
    if k = key then (k, v) :: rest else (k, w) :: objSet rest key v

/-- Result of the JavaScript `typeof` operator. -/
def JsValue.typeofStr : JsValue → String
  | .vUndefined => "undefined"
  | .vNull => "object"
  | .vNaN => "number"
  | .vBool _ => "boolean"
  | .vNum _ => "number"
  | .vStr _ => "string"
  | .vArr _ => "object"
  | .vObj _ => "object"

/-- The JavaScript `Array.isArray` test. -/
def JsValue.isArray : JsValue → Bool
  | .vArr _ => true
  | _ => false

/-- JavaScript truthiness: `undefined`, `null`, `NaN`, `false`, `0` and
the empty string are falsy; every other value is truthy. -/
def JsValue.truthy : JsValue → Bool
  | .vUndefined => false
  | .vNull => false
  | .vNaN => false
  | .vBool b => b
  | .vNum n => decide (n ≠ 0)
  | .vStr s => decide (s ≠ "")
  | .vArr _ => true
  | .vObj _ => true

/-- Whether a value is `null` or `undefined` (the values on which
property access throws and on which optional chaining short-circuits). -/
def JsValue.isNullish : JsValue → Bool
  | .vUndefined => true
  | .vNull => true
  | _ => false

mutual

/-- Approximation of JavaScript `String(v)` coercion, used only inside
error messages and `Array.prototype.join`. -/
def JsValue.display : JsValue → String
  | .vUndefined => "undefined"
  | .vNull => "null"
  | .vNaN => "NaN"
  | .vBool b => cond b "true" "false"
  | .vNum n => toString n
  | .vStr s => s
  | .vArr xs => String.intercalate "," (JsValue.displayElems xs)
  | .vObj _ => "[object Object]"

/-- Renders each element of a JavaScript array for `JsValue.display`. -/
def JsValue.displayElems : List JsValue → List String
  | [] => []
  | v :: rest => v.display :: JsValue.displayElems rest

end

/-- JavaScript property read `v[key]` / `v.key`: a `TypeError` on
`null`/`undefined`, an association-list lookup on objects, and
`undefined` on every other value (no built-in properties are needed by
the code under verification). -/
def getProp : JsValue → String → Except String JsValue
  | .vNull, k => .error ("TypeError: Cannot read properties of null (reading " ++ k ++ ")")
  | .vUndefined, k => .error ("TypeError: Cannot read properties of undefined (reading " ++ k ++ ")")
  | .vObj fs, k => .ok ((lookupField fs k).getD .vUndefined)
  | _, _ => .ok .vUndefined

/-- JavaScript index read `v[i]` for a numeric index. -/
def getIndex : JsValue → Nat → Except String JsValue
  | .vNull, i => .error ("TypeError: Cannot read properties of null (reading " ++ toString i ++ ")")
  | .vUndefined, i => .error ("TypeError: Cannot read properties of undefined (reading " ++ toString i ++ ")")
  | .vArr xs, i => .ok ((xs.get? i).getD .vUndefined)
  | .vObj fs, i => .ok ((lookupField fs (toString i)).getD .vUndefined)
  | .vStr s, i => .ok (((s.data.get? i).map (fun c => JsValue.vStr (String.mk [c]))).getD .vUndefined)
  | _, _ => .ok .vUndefined

/-- The optional chain `parsedResponse.choices?.[0]?.message?.function_call`
from `formatResponse` (apiHelpers.js line 79). The first access is not
optional, so a nullish `parsedResponse` throws; after that each `?.`
short-circuits to `undefined`. -/
def getFunctionCall (parsed : JsValue) : Except String JsValue :=
  match getProp parsed "choices" with
  | .error m => .error m
  | .ok choices =>
    if choices.isNullish then .ok .vUndefined else
    match getIndex choices 0 with
    | .error m => .error m
    | .ok first =>
      if first.isNullish then .ok .vUndefined else
      match getProp first "message" with
      | .error m => .error m
      | .ok message =>
        if message.isNullish then .ok .vUndefined else
        getProp message "function_call"

/-- The inner `try { parsedResponse = JSON.parse(functionCall.arguments) }`
of `formatResponse`: both the property read and the parse happen inside
the inner `try`, so any failure becomes the fixed message
`Failed to parse function call arguments`. `JSON.parse` coerces a
non-string argument to a string first. -/
def parseFunctionArgs (jsonParse : String → Except String JsValue) (fc : JsValue) :
    Except String JsValue :=
  match getProp fc "arguments" with
  | .error _ => .error "Failed to parse function call arguments"
  | .ok argv =>
    match jsonParse argv.display with
    | .ok v => .ok v
    | .error _ => .error "Failed to parse function call arguments"

/-- The reduce loop over `Object.keys(schema)` in
`formatResponse` (apiHelpers.js lines 89-92): starting from a fresh empty
object, copy `parsedResponse[key]` for each schema key into the
accumulator. A nullish `parsedResponse` makes the property read throw. -/
def buildFromSchema (parsed : JsValue) :
    List String → List (String × JsValue) → Except String (List (String × JsValue))
  | [], acc => .ok acc
  | key :: rest, acc =>
    match getProp parsed key with
    | .error m => .error m
    | .ok v => buildFromSchema parsed rest (objSet acc key v)

/-- Final step of `formatResponse` (apiHelpers.js lines 88-95): when a
schema is given, return the reduce-loop projection onto the schema keys,
otherwise return the parsed response unchanged. -/
def applySchema (parsed : JsValue) : Option (List (String × JsValue)) → Except String JsValue
  | some schemaFields =>
    match buildFromSchema parsed (schemaFields.map Prod.fst) [] with
    | .error m => .error m
    | .ok outFields => .ok (.vObj outFields)
  | none => .ok parsed

/-- Body of the outer `try` of `formatResponse` (apiHelpers.js lines
71-95): parse string input, unwrap a function-call envelope when one is
present, then project onto the schema keys when a schema is given. The
schema argument is the association list of the schema object's own
fields, so `Object.keys(schema)` is its list of first components. -/
def formatResponseCore (jsonParse : String → Except String JsValue)
    (response : JsValue) (schema : Option (List (String × JsValue))) :
    Except String JsValue :=
  match (match response with
         | .vStr s => jsonParse s
         | v => .ok v) with
  | .error m => .error m
  | .ok parsed1 =>
    match getFunctionCall parsed1 with
    | .error m => .error m
    | .ok fc =>
      match (if fc.truthy then parseFunctionArgs jsonParse fc else .ok parsed1) with
      | .error m => .error m
      | .ok parsed2 => applySchema parsed2 schema

/-- Function `formatResponse` (apiHelpers.js lines 70-99): the outer
`catch` rethrows every failure with the prefix `Failed to parse response:`. -/
def formatResponse (jsonParse : String → Except String JsValue)
    (response : JsValue) (schema : Option (List (String × JsValue))) :
    Except String JsValue :=
  match formatResponseCore jsonParse response schema with
  | .ok v => .ok v
  | .error m => .error ("Failed to parse response: " ++ m)

/-- Shape of the `error` objects inspected by `handleApiError`: the
nested path `error.response.data?.error?` is flattened to an optional
record carrying the truthy `function_call` envelope message (when
present) and the provider message. -/
structure ErrorInfo where
  functionCallMessage : Option String
  errorMessage : Option String
deriving Repr, DecidableEq

/-- Model of `error.response` (an HTTP response attached to the error):
`status` and the optional `data.error` payload. -/
structure ErrResponse where
  status : Nat
  info : Option ErrorInfo
deriving Repr, DecidableEq

/-- Model of a JavaScript `Error` as inspected by `handleApiError`:
`name`, `message`, the optional attached HTTP response, and whether a
`request` field is present (a sent-but-unanswered request). -/
structure JsError where
  name : String
  message : String
  response : Option ErrResponse
  request : Bool
deriving Repr, DecidableEq

/-- JavaScript `x || d` on an optional string: the default replaces both
a missing and an empty (falsy) string. -/
def orDefault : Option String → String → String
  | none, d => d
  | some s, d => if s = "" then d else s

/-- Function `handleApiError` (apiHelpers.js lines 48-61). Every branch
of the source function throws, so the result is always `Except.error`;
the `Except String Unit` type records that the function has no normal
return path that its caller could continue from. -/
def handleApiError (e : JsError) : Except String Unit :=
  match e.response with
  | some resp =>
    match resp.info with
    | some info =>
      match info.functionCallMessage with
      | some fcMsg => .error ("Function Call Error: " ++ fcMsg)
      | none => .error ("API Error: " ++ toString resp.status ++ " - "
          ++ orDefault info.errorMessage "Unknown error")
    | none => .error ("API Error: " ++ toString resp.status ++ " - Unknown error")
  | none =>
    if e.request then .error "Network Error: No response received from API"
    else if e.name = "FunctionCallError" then .error ("Function Call Error: " ++ e.message)
    else .error ("Error: " ++ e.message)

/-- How one external call to `makeApiRequest` is observed by its caller.
`resolved` and `rejected` are the two ways the returned promise can
settle; `unsettled` records a run in which an exception escaped the
async callback given to `operation.attempt`, became an unhandled promise
rejection, and left the promise returned by `makeApiRequest` permanently
pending. -/
inductive Outcome where
  | resolved : JsValue → Outcome
  | rejected : JsError → Outcome
  | unsettled : String → Outcome

/-- Errors thrown by `formatResponse` are plain `Error` objects: only a
name and a message, no attached response or request. -/
def mkFormatError (msg : String) : JsError :=
  { name := "Error", message := msg, response := none, request := false }

/-- Terminal branch of the catch block in `makeApiRequest` (apiHelpers.js
lines 127-128): `handleApiError(error)` runs first and `reject(error)`
runs only if it returns normally. Because every branch of
`handleApiError` throws, the `reject` call is unreachable and the thrown
message escapes the async callback. -/
def terminalOutcome (e : JsError) : Outcome :=
  match handleApiError e with
  | .error m => .unsettled m
  | .ok _ => .rejected e

/-- One attempt of the callback passed to `operation.attempt`
(apiHelpers.js lines 115-122): run `requestFn` through the rate limiter
(which only delays, never alters, the result) and format the result.
`results attemptNo` is the settled result of the attempt's `requestFn`
call. -/
def attemptOnce (jsonParse : String → Except String JsValue)
    (results : Nat → Except JsError JsValue)
    (schema : Option (List (String × JsValue))) (attemptNo : Nat) :
    Except JsError JsValue :=
  match results attemptNo with
  | .error e => .error e
  | .ok raw =>
    match formatResponse jsonParse raw schema with
    | .ok v => .ok v
    | .error m => .error (mkFormatError m)

/-- The retry loop of `makeApiRequest`: the `retry` package invokes the
callback with attempt numbers `1, 2, ...`; `operation.retry(error)`
consumes one remaining retry and re-invokes the callback whenever any
(truthy) error is passed and retries remain, regardless of the error's
kind. Returns the number of the last attempt made together with the
observed outcome. -/
def runAttempts (jsonParse : String → Except String JsValue)
    (results : Nat → Except JsError JsValue)
    (schema : Option (List (String × JsValue))) :
    Nat → Nat → Nat × Outcome
  | retriesLeft, attemptNo =>
    match attemptOnce jsonParse results schema attemptNo with
    | .ok v => (attemptNo, .resolved v)
    | .error e =>
      match retriesLeft with
      | 0 => (attemptNo, terminalOutcome e)
      | n + 1 => runAttempts jsonParse results schema n (attemptNo + 1)

/-- Effective retry budget of `createRetryOperation` (apiHelpers.js lines
33-41): the option object is spread over the defaults, so an explicit
`retries` value (including 0) wins over the `options.retries || 3`
default. The backoff, factor and timeout options only shape inter-attempt
delay and do not affect which attempts run. -/
def effectiveRetries : Option Nat → Nat
  | some n => n
  | none => 3

/-- Function `makeApiRequest` (apiHelpers.js lines 110-132), observed at
the level of settled attempt results: create the retry operation from the
`retries` option and run the attempt loop from attempt 1. -/
def makeApiRequest (jsonParse : String → Except String JsValue)
    (results : Nat → Except JsError JsValue)
    (retriesOpt : Option Nat)
    (schema : Option (List (String × JsValue))) : Nat × Outcome :=
  runAttempts jsonParse results schema (effectiveRetries retriesOpt) 1

/-- JavaScript `String.prototype.trim`: strip leading and trailing
whitespace (the claims only exercise ASCII whitespace). -/
def jsTrim (s : String) : String :=
  String.mk (((s.data.dropWhile Char.isWhitespace).reverse.dropWhile Char.isWhitespace).reverse)

/-- Drops `sep` from the front of `cs` when it is literally there. -/
def dropSepFront : List Char → List Char → Option (List Char)
  | [], cs => some cs
  | _ :: _, [] => none
  | p :: ps, c :: cs => if p = c then dropSepFront ps cs else none

/-- Fuel-driven worker for `jsSplitOn`: scan left to right, cutting at
each leftmost non-overlapping occurrence of the separator. The fuel is
the length of the scanned text, which bounds the recursion. -/
def jsSplitGo (sep : List Char) : Nat → List Char → List Char → List (List Char)
  | _, [], acc => [acc.reverse]
  | 0, cs, acc => [acc.reverse ++ cs]
  | fuel + 1, c :: rest, acc =>
    match dropSepFront sep (c :: rest) with
    | some rest2 => acc.reverse :: jsSplitGo sep fuel rest2 []
    | none => jsSplitGo sep fuel rest (c :: acc)

/-- JavaScript `String.prototype.split` with a non-empty string
separator (the transformer splits on a blank line). -/
def jsSplitOn (s : String) (sep : String) : List String :=
  (jsSplitGo sep.data s.data.length s.data []).map String.mk

/-- One feedback entry of the transformed analysis result
(transformers.js): a section title and its description text. -/
structure FeedbackItem where
  title : String
  description : String
deriving Repr, DecidableEq

/-- The transformed response built by `transformOpenAIResponse`
(transformers.js lines 140-148): the validated fields of the provider
response plus the derived `feedback` array. -/
structure TransformedResponse where
  score : JsValue
  feedback : List FeedbackItem
  suggestions : JsValue
  matchPercentage : JsValue
  keywordMatches : JsValue
  missingKeywords : JsValue
  detailedAnalysis : JsValue

/-- Fields of the (already checked to be non-null, non-array) response
object; property reads on it are plain lookups defaulting to
`undefined`. -/
def JsValue.objFields : JsValue → List (String × JsValue)
  | .vObj fs => fs
  | _ => []

/-- Property read used by the validator and transformer on the response
object after the object-shape check has passed. -/
def getField (response : JsValue) (key : String) : JsValue :=
  (lookupField response.objFields key).getD .vUndefined

/-- The ternary describing a rejected response shape
(transformers.js line 36). -/
def invalidFormatDesc : JsValue → String
  | .vNull => "null"
  | .vArr _ => "array"
  | v => v.typeofStr

/-- The required-field list of `validateOpenAIResponse`
(transformers.js lines 39-46), in source order. -/
def requiredFields : List String :=
  ["score", "matchPercentage", "keywordMatches", "missingKeywords",
   "suggestions", "detailedAnalysis"]

/-- First required field missing from the response, scanning in source
order with the JavaScript `in` test. -/
def findMissingField (fields : List (String × JsValue)) : List String → Option String
  | [] => none
  | f :: rest =>
    if (lookupField fields f).isNone then some f else findMissingField fields rest

/-- Numeric-field check of `validateOpenAIResponse` (transformers.js
lines 60-67): reject anything that is not a number (including `NaN`),
then reject values outside 0..100. -/
def checkNumericField (nm : String) (v : JsValue) : Except String Unit :=
  match v with
  | .vNum n =>
    if n < 0 ∨ n > 100 then
      .error ("Invalid " ++ nm ++ ": Must be between 0 and 100. Received: " ++ v.display)
    else .ok ()
  | other =>
    .error ("Invalid " ++ nm ++ ": Expected number, received " ++ other.typeofStr
      ++ ". Value: " ++ other.display)

/-- Array-field check of `validateOpenAIResponse` (transformers.js lines
76-83): the field must be an array in which every item is a string with
non-empty trim. -/
def checkArrayField (nm : String) (v : JsValue) : Except String Unit :=
  match v with
  | .vArr items =>
    if items.any (fun item =>
        match item with
        | .vStr s => decide (jsTrim s = "")
        | _ => true) then
      .error ("Invalid " ++ nm ++ ": All items must be non-empty strings")
    else .ok ()
  | other =>
    .error ("Invalid " ++ nm ++ ": Expected array, received " ++ other.typeofStr)

/-- The `detailedAnalysis` check of `validateOpenAIResponse`
(transformers.js lines 86-88): a string with non-empty trim. -/
def checkDetailedAnalysis (v : JsValue) : Except String Unit :=
  match v with
  | .vStr s =>
    if jsTrim s = "" then
      .error "Invalid detailedAnalysis: Expected non-empty string, received string"
    else .ok ()
  | other =>
    .error ("Invalid detailedAnalysis: Expected non-empty string, received "
      ++ other.typeofStr)

/-- Function `validateOpenAIResponse` (transformers.js lines 34-89):
shape check, required-field scan, numeric checks (matchPercentage before
score, as in the source array), array checks, and the detailed-analysis
check, failing with the first error encountered. -/
def validateOpenAIResponse (response : JsValue) : Except String Unit :=
  if !response.truthy || response.typeofStr != "object" || response.isArray then
    .error ("Invalid response format: Expected object, received "
      ++ invalidFormatDesc response)
  else
    match findMissingField response.objFields requiredFields with
    | some f =>
      .error ("Missing required field: " ++ f ++ ". Received fields: "
        ++ String.intercalate ", " (response.objFields.map Prod.fst))
    | none =>
      match checkNumericField "matchPercentage" (getField response "matchPercentage") with
      | .error m => .error m
      | .ok _ =>
        match checkNumericField "score" (getField response "score") with
        | .error m => .error m
        | .ok _ =>
          match checkArrayField "keywordMatches" (getField response "keywordMatches") with
          | .error m => .error m
          | .ok _ =>
            match checkArrayField "missingKeywords" (getField response "missingKeywords") with
            | .error m => .error m
            | .ok _ =>
              match checkArrayField "suggestions" (getField response "suggestions") with
              | .error m => .error m
              | .ok _ => checkDetailedAnalysis (getField response "detailedAnalysis")

/-- Function `parseDetailedAnalysis` (transformers.js lines 91-113):
split on blank lines, trim, drop empty paragraphs, and title the pieces
`Analysis Part 1`, `Analysis Part 2`, ... -/
def parseDetailedAnalysis (analysis : JsValue) : Except String (List FeedbackItem) :=
  match analysis with
  | .vStr s =>
    if jsTrim s = "" then .error "Empty analysis text provided"
    else
      let paragraphs := ((jsSplitOn s "\n\n").map jsTrim).filter (fun p => p ≠ "")
      if paragraphs.length = 0 then .error "No valid paragraphs found in analysis text"
      else
        .ok (paragraphs.enum.map (fun pair =>
          { title := "Analysis Part " ++ toString (pair.fst + 1)
          , description := pair.snd }))
  | other =>
    .error ("Invalid analysis format: Expected string, received " ++ other.typeofStr)

/-- JavaScript `arr.join(sep)`; only applied to validated string arrays
by the transformer. -/
def jsJoin (v : JsValue) (sep : String) : String :=
  match v with
  | .vArr items => String.intercalate sep (JsValue.displayElems items)
  | _ => ""

/-- Body of the `try` in `transformOpenAIResponse` (transformers.js
lines 122-148): validate, derive the feedback array (matching skills,
missing skills, then the detailed-analysis parts), and assemble the
transformed object. -/
def transformCore (response : JsValue) : Except String TransformedResponse :=
  match validateOpenAIResponse response with
  | .error m => .error m
  | .ok _ =>
    match parseDetailedAnalysis (getField response "detailedAnalysis") with
    | .error m => .error m
    | .ok analysisItems =>
      .ok
        { score := getField response "score"
        , feedback :=
            { title := "Matching Skills"
            , description := jsJoin (getField response "keywordMatches") ", " } ::
            { title := "Missing Skills"
            , description := jsJoin (getField response "missingKeywords") ", " } ::
            analysisItems
        , suggestions := getField response "suggestions"
        , matchPercentage := getField response "matchPercentage"
        , keywordMatches := getField response "keywordMatches"
        , missingKeywords := getField response "missingKeywords"
        , detailedAnalysis := getField response "detailedAnalysis" }

/-- Function `transformOpenAIResponse` (transformers.js lines 121-152):
the surrounding `catch` rewraps every failure with the prefix
`Failed to transform OpenAI response:`. -/
def transformOpenAIResponse (response : JsValue) : Except String TransformedResponse :=
  match transformCore response with
  | .ok t => .ok t
  | .error m => .error ("Failed to transform OpenAI response: " ++ m)

/-- Function `validateApiKey` (apiKeyUtils.js lines 51-53): the body is
a single `return true`. -/
def validateApiKey (_key : JsValue) : Bool :=
  true

/-- Heap-model value: either a primitive-like value held by copy, or a
reference into the store. Object identity matters only for the mutation
claim about `formatResponse`, so only the objects whose identity that
claim observes (the input response, parse results, and the accumulator
object the reduce loop builds) are given references. -/
inductive HVal where
  | prim : JsValue → HVal
  | ref : Nat → HVal

/-- Heap-model first-match lookup in an object's field list. -/
def lookupFieldH : List (String × HVal) → String → Option HVal
  | [], _ => none
  | (k, v) :: rest, key => if k = key then some v else lookupFieldH rest key

/-- Heap-model property assignment on an object's field list. -/
def objSetH : List (String × HVal) → String → HVal → List (String × HVal)
  | [], key, v => [(key, v)]
  | (k, w) :: rest, key, v =>
    if k = key then (k, v) :: rest else (k, w) :: objSetH rest key v

/-- The store of mutable objects: a list of field lists, indexed by
reference. -/
structure Store where
  objs : List (List (String × HVal))

/-- Allocates a fresh object at the end of the store, returning its
reference. -/
def Store.alloc (s : Store) (fields : List (String × HVal)) : Store × Nat :=
  ({ objs := s.objs ++ [fields] }, s.objs.length)

/-- Reads a field of the object at reference `r` (undefined when the
field is absent). -/
def Store.readField (s : Store) (r : Nat) (key : String) : HVal :=
  match s.objs.get? r with
  | some fields => (lookupFieldH fields key).getD (.prim .vUndefined)
  | none => .prim .vUndefined

/-- Writes a field of the object at reference `r`. -/
def Store.writeField (s : Store) (r : Nat) (key : String) (v : HVal) : Store :=
  match s.objs.get? r with
  | some fields => { objs := s.objs.set r (objSetH fields key v) }
  | none => s

/-- Heap-model truthiness. -/
def hTruthy : HVal → Bool
  | .prim p => p.truthy
  | .ref _ => true

/-- Heap-model nullish test (references are objects, never nullish). -/
def hIsNullish : HVal → Bool
  | .prim p => p.isNullish
  | .ref _ => false

/-- Heap-model string coercion, for the argument of `JSON.parse`. -/
def hDisplay : HVal → String
  | .prim p => p.display
  | .ref _ => "[object Object]"

/-- Heap-model property read: a store lookup on references, and the
value-model read on copies. -/
def hGetProp (s : Store) (v : HVal) (k : String) : Except String HVal :=
  match v with
  | .ref r => .ok (s.readField r k)
  | .prim p =>
    match getProp p k with
    | .error m => .error m
    | .ok w => .ok (.prim w)

/-- Heap-model index read. -/
def hGetIndex (s : Store) (v : HVal) (i : Nat) : Except String HVal :=
  match v with
  | .ref r => .ok (s.readField r (toString i))
  | .prim p =>
    match getIndex p i with
    | .error m => .error m
    | .ok w => .ok (.prim w)

/-- Heap-model version of the optional chain
`parsedResponse.choices?.[0]?.message?.function_call`. Every step only
reads the store. -/
def hGetFunctionCall (s : Store) (parsed : HVal) : Except String HVal :=
  match hGetProp s parsed "choices" with
  | .error m => .error m
  | .ok choices =>
    if hIsNullish choices then .ok (.prim .vUndefined) else
    match hGetIndex s choices 0 with
    | .error m => .error m
    | .ok first =>
      if hIsNullish first then .ok (.prim .vUndefined) else
      match hGetProp s first "message" with
      | .error m => .error m
      | .ok message =>
        if hIsNullish message then .ok (.prim .vUndefined) else
        hGetProp s message "function_call"

/-- Heap-model version of the inner function-call-arguments parse;
`jsonParseH` may allocate in the store (a parsed JSON object is a fresh
object graph). -/
def hParseFunctionArgs (jsonParseH : Store → String → Store × Except String HVal)
    (s : Store) (fc : HVal) : Store × Except String HVal :=
  match hGetProp s fc "arguments" with
  | .error _ => (s, .error "Failed to parse function call arguments")
  | .ok argv =>
    match jsonParseH s (hDisplay argv) with
    | (s2, .ok v) => (s2, .ok v)
    | (s2, .error _) => (s2, .error "Failed to parse function call arguments")

/-- The reduce loop of `formatResponse` in the heap model: every
iteration writes one schema key into the freshly allocated accumulator
object `accRef`; the parsed response is only read. -/
def writeKeys (s : Store) (accRef : Nat) (parsed : HVal) :
    List String → Store × Except String Unit
  | [] => (s, .ok ())
  | key :: rest =>
    match hGetProp s parsed key with
    | .error m => (s, .error m)
    | .ok v => writeKeys (s.writeField accRef key v) accRef parsed rest

/-- The string branch of `formatResponse` in the heap model: a string
input goes through `JSON.parse` (which may allocate), anything else is
passed on with the store untouched. -/
def parseStepH (jsonParseH : Store → String → Store × Except String HVal)
    (s0 : Store) (response : HVal) : Store × Except String HVal :=
  match response with
  | .prim (.vStr str) => jsonParseH s0 str
  | v => (s0, .ok v)

/-- The function-call branch of `formatResponse` in the heap model:
parse the envelope arguments when the envelope is truthy, otherwise keep
the parsed response. -/
def argStepH (jsonParseH : Store → String → Store × Except String HVal)
    (s1 : Store) (fc parsed1 : HVal) : Store × Except String HVal :=
  if hTruthy fc then hParseFunctionArgs jsonParseH s1 fc else (s1, .ok parsed1)

/-- The schema branch of `formatResponse` in the heap model: allocate
the fresh reduce accumulator and run the key-copy loop into it. -/
def schemaStepH (s2 : Store) (parsed2 : HVal) :
    Option (List String) → Store × Except String HVal
  | some keys =>
    match s2.alloc [] with
    | (s3, accRef) =>
      match writeKeys s3 accRef parsed2 keys with
      | (s4, .ok _) => (s4, .ok (.ref accRef))
      | (s4, .error m) => (s4, .error ("Failed to parse response: " ++ m))
  | none => (s2, .ok parsed2)

/-- Function `formatResponse` in the heap model, tracking every object
mutation the source performs. The only writes are the `acc[key] = ...`
assignments into the object freshly allocated as the reduce
accumulator, plus whatever `JSON.parse` allocates. -/
def formatResponseHeap (jsonParseH : Store → String → Store × Except String HVal)
    (s0 : Store) (response : HVal) (schema : Option (List String)) :
    Store × Except String HVal :=
  match parseStepH jsonParseH s0 response with
  | (s1, .error m) => (s1, .error ("Failed to parse response: " ++ m))
  | (s1, .ok parsed1) =>
    match hGetFunctionCall s1 parsed1 with
    | .error m => (s1, .error ("Failed to parse response: " ++ m))
    | .ok fc =>
      match argStepH jsonParseH s1 fc parsed1 with
      | (s2, .error m) => (s2, .error ("Failed to parse response: " ++ m))
      | (s2, .ok parsed2) => schemaStepH s2 parsed2 schema

/-- A `JSON.parse` oracle for concrete runs in which no string ever
reaches the parser; it rejects everything, like `JSON.parse` on
non-JSON input. -/
def jp0 : String → Except String JsValue := fun _ => .error "SyntaxError: Unexpected token"

/-- Concrete provider response of Scenario A of the specification. -/
def scenarioARaw : JsValue :=
  .vObj [("score", .vNum 85), ("matchPercentage", .vNum 85),
         ("keywordMatches", .vArr [.vStr "React"]),
         ("missingKeywords", .vArr [.vStr "Python"]),
         ("suggestions", .vArr [.vStr "Learn Python"]),
         ("detailedAnalysis", .vStr "Good fit.")]

/-- The transform of `scenarioARaw`: the same fields plus the derived
feedback array. -/
def scenarioAResult : TransformedResponse :=
  { score := .vNum 85
  , feedback := [{ title := "Matching Skills", description := "React" },
                 { title := "Missing Skills", description := "Python" },
                 { title := "Analysis Part 1", description := "Good fit." }]
  , suggestions := .vArr [.vStr "Learn Python"]
  , matchPercentage := .vNum 85
  , keywordMatches := .vArr [.vStr "React"]
  , missingKeywords := .vArr [.vStr "Python"]
  , detailedAnalysis := .vStr "Good fit." }

/-- Scenario A with an out-of-range score of 150. -/
def raw150 : JsValue :=
  .vObj [("score", .vNum 150), ("matchPercentage", .vNum 85),
         ("keywordMatches", .vArr [.vStr "React"]),
         ("missingKeywords", .vArr [.vStr "Python"]),
         ("suggestions", .vArr [.vStr "Learn Python"]),
         ("detailedAnalysis", .vStr "Good fit.")]

/-- A provider HTTP 401 error (the shape an invalid-credential failure
reaches `makeApiRequest` with). -/
def err401 : JsError :=
  { name := "Error", message := "Request failed with status code 401"
  , response := some { status := 401
                     , info := some { functionCallMessage := none
                                    , errorMessage := some "Invalid API key" } }
  , request := false }

/-- A provider HTTP 429 (rate-limited) error carrying no payload. -/
def err429 : JsError :=
  { name := "Error", message := "Request failed with status code 429"
  , response := some { status := 429, info := none }, request := false }

/-- A plain thrown error with neither a response nor a request field. -/
def errBoom : JsError :=
  { name := "Error", message := "boom", response := none, request := false }

/-- A raw response a successful attempt settles with. -/
def okRaw : JsValue := .vObj [("score", .vNum 85)]

/-- Attempt results that fail once with the HTTP 401 error and succeed
from the second attempt on. -/
def results401Once : Nat → Except JsError JsValue := fun i =>
  if i = 1 then .error err401 else .ok okRaw

/-- A response schema declaring a single required field `suggestions`,
in the shape the specification gives to `ResponseSchema` entries. -/
def schemaSuggestions : List (String × JsValue) :=
  [("suggestions", .vObj [("type", .vStr "array"), ("required", .vBool true),
                          ("defaultValue", .vArr [])])]

/-- A one-field schema used for the extra-field test. -/
def schemaA : List (String × JsValue) := [("a", .vNull)]

/-- A heap-model `JSON.parse` oracle that rejects every string and
leaves the store untouched. -/
def jpH0 : Store → String → Store × Except String HVal :=
  fun s _ => (s, .error "SyntaxError: Unexpected token")

/-- A one-object store holding a concrete raw response. -/
def store0 : Store :=
  { objs := [[("score", HVal.prim (.vNum 85)), ("extra", HVal.prim (.vStr "x"))]] }

/-- Property assignment then lookup: the assigned key reads back the
assigned value, every other key is untouched. -/
theorem lookupField_objSet (acc : List (String × JsValue)) (key q : String) (v : JsValue) :
    lookupField (objSet acc key v) q = if q = key then some v else lookupField acc q := by
  induction acc with
  | nil =>
    simp only [objSet, lookupField]
    by_cases h : q = key
    · subst h; simp
    · rw [if_neg (fun hh : key = q => h hh.symm), if_neg h]
  | cons hd tl ih =>
    obtain ⟨k, w⟩ := hd
    simp only [objSet]
    by_cases hk : k = key
    · subst hk
      simp only [if_pos rfl, lookupField]
      by_cases hq : q = k
      · subst hq; simp
      · rw [if_neg (fun hh : k = q => hq hh.symm), if_neg hq,
            if_neg (fun hh : k = q => hq hh.symm)]
    · rw [if_neg hk]
      simp only [lookupField]
      by_cases hq : k = q
      · subst hq
        rw [if_pos rfl, if_neg (fun hh : k = key => hk hh), if_pos rfl]
      · rw [if_neg hq, ih]
        by_cases h2 : q = key
        · simp [h2]
        · rw [if_neg h2, if_neg h2, if_neg hq]

/-- Builds of the schema projection over an object response always
succeed, and each schema key reads back the corresponding response
field (undefined when absent); keys outside the schema fall through to
the accumulator. -/
theorem buildFromSchema_vObj (fs : List (String × JsValue)) :
    ∀ (keys : List String) (acc : List (String × JsValue)),
      ∃ out, buildFromSchema (.vObj fs) keys acc = .ok out ∧
        ∀ q, lookupField out q =
          if q ∈ keys then some ((lookupField fs q).getD .vUndefined) else lookupField acc q := by
  intro keys
  induction keys with
  | nil => intro acc; exact ⟨acc, rfl, fun q => by simp⟩
  | cons key rest ih =>
    intro acc
    obtain ⟨out, hout, hq⟩ := ih (objSet acc key ((lookupField fs key).getD .vUndefined))
    refine ⟨out, ?_, ?_⟩
    · simpa [buildFromSchema, getProp] using hout
    · intro q
      rw [hq q, lookupField_objSet]
      by_cases h1 : q ∈ rest
      · simp [h1]
      · by_cases h2 : q = key
        · subst h2; simp [h1]
        · simp [h1, h2]

/-- Successful schema builds populate exactly the scanned keys (on top
of whatever the accumulator already had), for any parsed value. -/
theorem buildFromSchema_keys (parsed : JsValue) :
    ∀ (keys : List String) (acc out : List (String × JsValue)),
      buildFromSchema parsed keys acc = .ok out →
      ∀ q, (lookupField out q).isSome = true ↔ ((lookupField acc q).isSome = true ∨ q ∈ keys) := by
  intro keys
  induction keys with
  | nil =>
    intro acc out h q
    simp only [buildFromSchema] at h
    injection h with h
    subst h
    simp
  | cons key rest ih =>
    intro acc out h q
    simp only [buildFromSchema] at h
    match hg : getProp parsed key with
    | .error m => rw [hg] at h; exact absurd h (by simp)
    | .ok v =>
      rw [hg] at h
      have := ih (objSet acc key v) out h q
      rw [this, lookupField_objSet]
      by_cases h2 : q = key
      · subst h2; simp
      · simp [h2]

/-- Every successful run of `formatResponse` with a schema produced its
output by the schema projection loop. -/
theorem formatResponse_ok_schema (jp : String → Except String JsValue)
    (raw : JsValue) (schemaFields : List (String × JsValue)) (out : JsValue)
    (h : formatResponse jp raw (some schemaFields) = .ok out) :
    ∃ parsed outFields,
      buildFromSchema parsed (schemaFields.map Prod.fst) [] = .ok outFields ∧
      out = .vObj outFields := by
  unfold formatResponse at h
  split at h
  next v hcore =>
    injection h with h
    subst h
    unfold formatResponseCore at hcore
    split at hcore
    · exact absurd hcore (by simp)
    next parsed1 hparse =>
      split at hcore
      · exact absurd hcore (by simp)
      next fc hfc =>
        split at hcore
        · exact absurd hcore (by simp)
        next parsed2 hargs =>
          simp only [applySchema] at hcore
          split at hcore
          · exact absurd hcore (by simp)
          next outFields hbuild =>
            injection hcore with hcore
            exact ⟨parsed2, outFields, hbuild, hcore.symm⟩
  next m hcore =>
    exact absurd h (by simp)

/-- Function `handleApiError` never returns normally: every branch of
the source throws. -/
theorem handleApiError_throws (e : JsError) : ∃ m, handleApiError e = .error m := by
  obtain ⟨name, message, response, request⟩ := e
  cases response with
  | some resp =>
    obtain ⟨status, info⟩ := resp
    cases info with
    | none => exact ⟨_, rfl⟩
    | some i =>
      obtain ⟨fcm, em⟩ := i
      cases fcm with
      | some fc => exact ⟨_, rfl⟩
      | none => exact ⟨_, rfl⟩
  | none =>
    cases request with
    | true => exact ⟨_, rfl⟩
    | false =>
      by_cases hn : name = "FunctionCallError"
      · refine ⟨"Function Call Error: " ++ message, ?_⟩
        simp [handleApiError, hn]
      · refine ⟨"Error: " ++ message, ?_⟩
        simp [handleApiError, hn]

/-- The terminal branch of the retry loop always leaves the promise
unsettled: `handleApiError` throws before `reject` can run. -/
theorem terminalOutcome_unsettled (e : JsError) :
    ∃ m, terminalOutcome e = .unsettled m ∧ handleApiError e = .error m := by
  obtain ⟨m, hm⟩ := handleApiError_throws e
  exact ⟨m, by simp [terminalOutcome, hm], hm⟩

/-- A successful attempt resolves immediately with that attempt's
number. -/
theorem runAttempts_ok (jp : String → Except String JsValue)
    (results : Nat → Except JsError JsValue) (schema : Option (List (String × JsValue)))
    (n a : Nat) (v : JsValue) (h : attemptOnce jp results schema a = .ok v) :
    runAttempts jp results schema n a = (a, .resolved v) := by
  unfold runAttempts
  rw [h]

/-- A failing attempt with no retries left reaches the terminal branch. -/
theorem runAttempts_zero_error (jp : String → Except String JsValue)
    (results : Nat → Except JsError JsValue) (schema : Option (List (String × JsValue)))
    (a : Nat) (e : JsError) (h : attemptOnce jp results schema a = .error e) :
    runAttempts jp results schema 0 a = (a, terminalOutcome e) := by
  unfold runAttempts
  rw [h]

/-- A failing attempt with retries remaining consumes one retry and
re-runs the next attempt, whatever the error was. -/
theorem runAttempts_succ_error (jp : String → Except String JsValue)
    (results : Nat → Except JsError JsValue) (schema : Option (List (String × JsValue)))
    (n a : Nat) (e : JsError) (h : attemptOnce jp results schema a = .error e) :
    runAttempts jp results schema (n + 1) a = runAttempts jp results schema n (a + 1) := by
  conv_lhs => rw [runAttempts.eq_def]
  dsimp only
  rw [h]

/-- With attempt results that always fail, the loop runs the whole
budget and terminates on the last attempt's error. -/
theorem runAttempts_always_error (jp : String → Except String JsValue)
    (schema : Option (List (String × JsValue))) (errf : Nat → JsError) :
    ∀ n a, runAttempts jp (fun i => .error (errf i)) schema n a
      = (a + n, terminalOutcome (errf (a + n))) := by
  intro n
  induction n with
  | zero =>
    intro a
    simpa using runAttempts_zero_error jp _ schema a (errf a) (by simp [attemptOnce])
  | succ n ih =>
    intro a
    rw [runAttempts_succ_error jp _ schema n a (errf a) (by simp [attemptOnce]), ih (a + 1)]
    have h1 : a + 1 + n = a + (n + 1) := by omega
    rw [h1]

/-- A value passing the numeric check is a number between 0 and 100. -/
theorem checkNumericField_ok (nm : String) (v : JsValue)
    (h : checkNumericField nm v = .ok ()) :
    ∃ n : Int, v = .vNum n ∧ 0 ≤ n ∧ n ≤ 100 := by
  cases v with
  | vNum n =>
    refine ⟨n, rfl, ?_⟩
    simp only [checkNumericField] at h
    split at h
    · exact absurd h (by simp)
    next hrange =>
      push_neg at hrange
      exact hrange
  | vUndefined => exact absurd h (by simp [checkNumericField])
  | vNull => exact absurd h (by simp [checkNumericField])
  | vNaN => exact absurd h (by simp [checkNumericField])
  | vBool b => exact absurd h (by simp [checkNumericField])
  | vStr s => exact absurd h (by simp [checkNumericField])
  | vArr xs => exact absurd h (by simp [checkNumericField])
  | vObj fs => exact absurd h (by simp [checkNumericField])

/-- A response passing validation passed both numeric checks. -/
theorem validateOpenAIResponse_ok_numeric (response : JsValue)
    (h : validateOpenAIResponse response = .ok ()) :
    checkNumericField "score" (getField response "score") = .ok () ∧
    checkNumericField "matchPercentage" (getField response "matchPercentage") = .ok () := by
  unfold validateOpenAIResponse at h
  split at h
  · exact absurd h (by simp)
  split at h
  · exact absurd h (by simp)
  split at h
  · exact absurd h (by simp)
  next hmp =>
    split at h
    · exact absurd h (by simp)
    next hsc =>
      refine ⟨?_, ?_⟩
      · cases hval : checkNumericField "score" (getField response "score") with
        | ok u => cases u; rfl
        | error m => rw [hval] at hsc; exact absurd hsc (by simp)
      · cases hval : checkNumericField "matchPercentage" (getField response "matchPercentage") with
        | ok u => cases u; rfl
        | error m => rw [hval] at hmp; exact absurd hmp (by simp)

/-- A successful transform validated the response and copies the
response's `score` and `matchPercentage` fields into the result. -/
theorem transformOpenAIResponse_ok (response : JsValue) (t : TransformedResponse)
    (h : transformOpenAIResponse response = .ok t) :
    validateOpenAIResponse response = .ok () ∧
    t.score = getField response "score" ∧
    t.matchPercentage = getField response "matchPercentage" := by
  unfold transformOpenAIResponse at h
  split at h
  next t2 hcore =>
    injection h with h
    subst h
    unfold transformCore at hcore
    split at hcore
    · exact absurd hcore (by simp)
    next u hval =>
      split at hcore
      · exact absurd hcore (by simp)
      next items hparse =>
        injection hcore with hcore
        subst hcore
        cases u
        exact ⟨hval, rfl, rfl⟩
  next m hcore =>
    exact absurd h (by simp)

/-- Writing a field of one object leaves every other store slot
untouched. -/
theorem writeField_preserve (s : Store) (r : Nat) (key : String) (v : HVal)
    (q : Nat) (hne : q ≠ r) :
    (s.writeField r key v).objs.get? q = s.objs.get? q := by
  unfold Store.writeField
  split
  · exact List.get?_set_ne _ _ (fun hh => hne hh.symm)
  · rfl

/-- Writing a field of one object does not change the store's size. -/
theorem writeField_length (s : Store) (r : Nat) (key : String) (v : HVal) :
    (s.writeField r key v).objs.length = s.objs.length := by
  unfold Store.writeField
  split
  · exact List.length_set _ _ _
  · rfl

/-- The reduce loop writes only to the accumulator object: every other
store slot is preserved. -/
theorem writeKeys_preserve (accRef : Nat) (parsed : HVal) :
    ∀ (keys : List String) (s : Store) (q : Nat), q ≠ accRef →
      ((writeKeys s accRef parsed keys).1).objs.get? q = s.objs.get? q := by
  intro keys
  induction keys with
  | nil => intro s q _; rfl
  | cons key rest ih =>
    intro s q hq
    unfold writeKeys
    split
    · rfl
    · rw [ih (s.writeField accRef key _) q hq, writeField_preserve s accRef key _ q hq]

/-- Allocation preserves every existing store slot. -/
theorem alloc_preserve (s : Store) (fields : List (String × HVal))
    (q : Nat) (hq : q < s.objs.length) :
    ((s.alloc fields).1).objs.get? q = s.objs.get? q := by
  unfold Store.alloc
  exact List.get?_append hq

/-- The string-parse step preserves every existing store slot. -/
theorem parseStepH_preserve (jsonParseH : Store → String → Store × Except String HVal)
    (hpres : ∀ s str q, q < s.objs.length →
      ((jsonParseH s str).1).objs.get? q = s.objs.get? q)
    (s0 : Store) (response : HVal) (q : Nat) (hq : q < s0.objs.length) :
    ((parseStepH jsonParseH s0 response).1).objs.get? q = s0.objs.get? q := by
  cases response with
  | ref r => rfl
  | prim p =>
    cases p with
    | vStr str => exact hpres s0 str q hq
    | vUndefined => rfl
    | vNull => rfl
    | vNaN => rfl
    | vBool b => rfl
    | vNum n => rfl
    | vArr xs => rfl
    | vObj fs => rfl

/-- The string-parse step never shrinks the store. -/
theorem parseStepH_length (jsonParseH : Store → String → Store × Except String HVal)
    (hlen : ∀ s str, s.objs.length ≤ ((jsonParseH s str).1).objs.length)
    (s0 : Store) (response : HVal) :
    s0.objs.length ≤ ((parseStepH jsonParseH s0 response).1).objs.length := by
  cases response with
  | ref r => exact le_refl _
  | prim p =>
    cases p with
    | vStr str => exact hlen s0 str
    | vUndefined => exact le_refl _
    | vNull => exact le_refl _
    | vNaN => exact le_refl _
    | vBool b => exact le_refl _
    | vNum n => exact le_refl _
    | vArr xs => exact le_refl _
    | vObj fs => exact le_refl _

/-- The envelope-arguments step preserves every existing store slot. -/
theorem argStepH_preserve (jsonParseH : Store → String → Store × Except String HVal)
    (hpres : ∀ s str q, q < s.objs.length →
      ((jsonParseH s str).1).objs.get? q = s.objs.get? q)
    (s1 : Store) (fc parsed1 : HVal) (q : Nat) (hq1 : q < s1.objs.length) :
    ((argStepH jsonParseH s1 fc parsed1).1).objs.get? q = s1.objs.get? q := by
  unfold argStepH
  split
  · unfold hParseFunctionArgs
    split
    · rfl
    next argv _ =>
      have h1 := hpres s1 (hDisplay argv) q hq1
      rcases hj : jsonParseH s1 (hDisplay argv) with ⟨s2, res⟩
      rw [hj] at h1
      cases res with
      | ok v => exact h1
      | error m => exact h1
  · rfl

/-- The envelope-arguments step never shrinks the store. -/
theorem argStepH_length (jsonParseH : Store → String → Store × Except String HVal)
    (hlen : ∀ s str, s.objs.length ≤ ((jsonParseH s str).1).objs.length)
    (s1 : Store) (fc parsed1 : HVal) :
    s1.objs.length ≤ ((argStepH jsonParseH s1 fc parsed1).1).objs.length := by
  unfold argStepH
  split
  · unfold hParseFunctionArgs
    split
    · exact le_refl _
    next argv _ =>
      have h1 := hlen s1 (hDisplay argv)
      rcases hj : jsonParseH s1 (hDisplay argv) with ⟨s2, res⟩
      rw [hj] at h1
      cases res with
      | ok v => exact h1
      | error m => exact h1
  · exact le_refl _

/-- The schema step only writes into the freshly allocated accumulator:
every pre-existing store slot is preserved. -/
theorem schemaStepH_preserve (s2 : Store) (parsed2 : HVal)
    (schema : Option (List String)) (q : Nat) (hq2 : q < s2.objs.length) :
    ((schemaStepH s2 parsed2 schema).1).objs.get? q = s2.objs.get? q := by
  cases schema with
  | none => rfl
  | some keys =>
    have halloc : ((s2.alloc []).1).objs.get? q = s2.objs.get? q :=
      alloc_preserve s2 [] q hq2
    have hacc : q ≠ s2.objs.length := Nat.ne_of_lt hq2
    have hw := writeKeys_preserve (s2.objs.length) parsed2 keys ((s2.alloc []).1) q hacc
    unfold schemaStepH
    rcases hwk : writeKeys ((s2.alloc []).1) (s2.objs.length) parsed2 keys with ⟨s4, res4⟩
    rw [hwk] at hw
    cases res4 with
    | ok u =>
      show (match writeKeys ((s2.alloc []).1) (s2.objs.length) parsed2 keys with
            | (s4, Except.ok _) => (s4, Except.ok (HVal.ref (s2.objs.length)))
            | (s4, Except.error m) =>
              (s4, Except.error ("Failed to parse response: " ++ m))).1.objs.get? q
          = s2.objs.get? q
      rw [hwk]
      dsimp only
      rw [hw, halloc]
    | error m =>
      show (match writeKeys ((s2.alloc []).1) (s2.objs.length) parsed2 keys with
            | (s4, Except.ok _) => (s4, Except.ok (HVal.ref (s2.objs.length)))
            | (s4, Except.error m) =>
              (s4, Except.error ("Failed to parse response: " ++ m))).1.objs.get? q
          = s2.objs.get? q
      rw [hwk]
      dsimp only
      rw [hw, halloc]

/-- Claim C9: the response formatter is pure and side-effect-free. In
the heap model, `formatResponse` run with any `JSON.parse` oracle that
only allocates (never rewrites existing objects) leaves every
pre-existing object — in particular the input raw response — exactly as
it was: no field of the input is added, removed, or modified. The only
writes performed are into the freshly allocated reduce accumulator. -/
theorem formatResponseHeap_preserves_input
    (jsonParseH : Store → String → Store × Except String HVal)
    (hpres : ∀ s str q, q < s.objs.length →
      ((jsonParseH s str).1).objs.get? q = s.objs.get? q)
    (hlen : ∀ s str, s.objs.length ≤ ((jsonParseH s str).1).objs.length)
    (s0 : Store) (response : HVal) (schema : Option (List String))
    (q : Nat) (hq : q < s0.objs.length) :
    ((formatResponseHeap jsonParseH s0 response schema).1).objs.get? q = s0.objs.get? q := by
  have h1 := parseStepH_preserve jsonParseH hpres s0 response q hq
  have h1l := parseStepH_length jsonParseH hlen s0 response
  unfold formatResponseHeap
  rcases hps : parseStepH jsonParseH s0 response with ⟨s1, res1⟩
  rw [hps] at h1 h1l
  dsimp only at h1 h1l
  cases res1 with
  | error m => exact h1
  | ok parsed1 =>
    dsimp only
    cases hfc : hGetFunctionCall s1 parsed1 with
    | error m => exact h1
    | ok fc =>
      dsimp only
      have hq1 : q < s1.objs.length := lt_of_lt_of_le hq h1l
      have h2 := argStepH_preserve jsonParseH hpres s1 fc parsed1 q hq1
      have h2l := argStepH_length jsonParseH hlen s1 fc parsed1
      rcases has : argStepH jsonParseH s1 fc parsed1 with ⟨s2, res2⟩
      rw [has] at h2 h2l
      dsimp only at h2 h2l
      cases res2 with
      | error m =>
        dsimp only
        rw [h2, h1]
      | ok parsed2 =>
        have hq2 : q < s2.objs.length := lt_of_lt_of_le hq1 h2l
        have h3 := schemaStepH_preserve s2 parsed2 schema q hq2
        dsimp only
        rw [h3, h2, h1]

/-- Claim C1, counterexample: with `maxRetries = 5` and an operation
that fails once with an HTTP 401 (InvalidCredential) error and then
succeeds, `makeApiRequest` runs a second attempt and resolves — the
operation is not attempted exactly once and the call does not reject on
the first occurrence, because the source's `operation.retry(error)`
consumes a retry slot for every error kind. -/
theorem c1_counterexample :
    makeApiRequest jp0 results401Once (some 5) none = (2, .resolved okRaw) := rfl

/-- Claim C1, amended: `makeApiRequest` applies the retry policy
uniformly to every error kind; an error the specification classifies
non-retryable (such as HTTP 401 InvalidCredential) still consumes a
retry slot, so with `maxRetries = 5` and an operation that fails once
and then succeeds, the operation is attempted exactly twice and the
call resolves with the second attempt's formatted response. -/
theorem c1_amended_nonretryable_consumes_retry
    (results : Nat → Except JsError JsValue) (e : JsError) (v w : JsValue)
    (jp : String → Except String JsValue) (schema : Option (List (String × JsValue)))
    (h1 : results 1 = .error e) (h2 : results 2 = .ok v)
    (h3 : formatResponse jp v schema = .ok w) :
    makeApiRequest jp results (some 5) schema = (2, .resolved w) := by
  unfold makeApiRequest
  show runAttempts jp results schema (4 + 1) 1 = (2, .resolved w)
  rw [runAttempts_succ_error jp results schema 4 1 e (by simp [attemptOnce, h1]),
      runAttempts_ok jp results schema 4 2 w (by simp [attemptOnce, h2, h3])]

/-- Claim C1, witness for the amended statement: the concrete
401-then-success run with `maxRetries = 5` is attempted twice and
resolves. -/
theorem c1_amended_witness :
    makeApiRequest jp0 results401Once (some 5) none = (2, .resolved okRaw) :=
  c1_amended_nonretryable_consumes_retry results401Once err401 okRaw okRaw jp0 none
    rfl rfl rfl

/-- Claim C2, counterexample: `formatResponse` raises no error when a
schema field marked required is absent (it copies `undefined` into the
output) and raises no error when a present field's value has the wrong
type (it copies the value unchanged). -/
theorem c2_counterexample :
    formatResponse jp0 (.vObj [("score", .vNum 85)]) (some schemaSuggestions)
      = .ok (.vObj [("suggestions", .vUndefined)]) ∧
    formatResponse jp0 (.vObj [("suggestions", .vStr "not an array")]) (some schemaSuggestions)
      = .ok (.vObj [("suggestions", .vStr "not an array")]) :=
  ⟨rfl, rfl⟩

/-- Claim C2, amended: `formatResponse` performs no required-field or
type validation at all; for every object raw response without a
function-call envelope and every schema it succeeds, returning exactly
the schema's keys with each value copied verbatim from the raw response
(undefined when absent). The required-field and type checks described by
the specification are performed only by `validateOpenAIResponse` in the
transformer module. -/
theorem c2_amended_formatter_no_validation
    (jp : String → Except String JsValue)
    (schemaFields rawFields : List (String × JsValue))
    (hch : lookupField rawFields "choices" = none) :
    ∃ outFields,
      formatResponse jp (.vObj rawFields) (some schemaFields) = .ok (.vObj outFields) ∧
      ∀ q, q ∈ schemaFields.map Prod.fst →
        lookupField outFields q = some ((lookupField rawFields q).getD .vUndefined) := by
  obtain ⟨out, hout, hq⟩ := buildFromSchema_vObj rawFields (schemaFields.map Prod.fst) []
  have hfc : getFunctionCall (.vObj rawFields) = .ok .vUndefined := by
    unfold getFunctionCall
    simp [getProp, hch, JsValue.isNullish]
  refine ⟨out, ?_, ?_⟩
  · unfold formatResponse formatResponseCore
    dsimp only
    rw [hfc]
    simp [JsValue.truthy, applySchema, hout]
  · intro q hqmem
    rw [hq q]
    simp [hqmem]

/-- Claim C2, witness for the amended statement: formatting a raw
response that lacks the required `suggestions` field succeeds and maps
`suggestions` to `undefined`. -/
theorem c2_amended_witness :
    ∃ outFields,
      formatResponse jp0 (.vObj [("score", .vNum 85)]) (some schemaSuggestions)
        = .ok (.vObj outFields) ∧
      lookupField outFields "suggestions" = some .vUndefined := by
  obtain ⟨outFields, hok, hcopy⟩ :=
    c2_amended_formatter_no_validation jp0 schemaSuggestions [("score", .vNum 85)] rfl
  refine ⟨outFields, hok, ?_⟩
  have := hcopy "suggestions" (by simp [schemaSuggestions])
  simpa [lookupField] using this

/-- Claim C3: every `AnalysisResult` the transformer produces has
`score` and `matchPercentage` within 0..100, and a provider response
with `score = 150` is rejected with a validation error naming the range,
never silently clamped or coerced into range. -/
theorem c3_scores_within_bounds :
    (∀ raw t, transformOpenAIResponse raw = .ok t →
      (∃ n : Int, t.score = .vNum n ∧ 0 ≤ n ∧ n ≤ 100) ∧
      (∃ m : Int, t.matchPercentage = .vNum m ∧ 0 ≤ m ∧ m ≤ 100)) ∧
    transformOpenAIResponse raw150 =
      .error "Failed to transform OpenAI response: Invalid score: Must be between 0 and 100. Received: 150" := by
  constructor
  · intro raw t h
    obtain ⟨hval, hsc, hmp⟩ := transformOpenAIResponse_ok raw t h
    obtain ⟨hnumSc, hnumMp⟩ := validateOpenAIResponse_ok_numeric raw hval
    constructor
    · obtain ⟨n, hn, h0, h100⟩ := checkNumericField_ok _ _ hnumSc
      exact ⟨n, by rw [hsc, hn], h0, h100⟩
    · obtain ⟨m, hm, h0, h100⟩ := checkNumericField_ok _ _ hnumMp
      exact ⟨m, by rw [hmp, hm], h0, h100⟩
  · rfl

/-- Claim C3, witness: the Scenario A response transforms successfully
and its score and match percentage are inside the bounds. -/
theorem c3_witness :
    transformOpenAIResponse scenarioARaw = .ok scenarioAResult ∧
    (∃ n : Int, scenarioAResult.score = .vNum n ∧ 0 ≤ n ∧ n ≤ 100) ∧
    (∃ m : Int, scenarioAResult.matchPercentage = .vNum m ∧ 0 ≤ m ∧ m ≤ 100) :=
  ⟨rfl, (c3_scores_within_bounds.1 scenarioARaw scenarioAResult rfl).1,
        (c3_scores_within_bounds.1 scenarioARaw scenarioAResult rfl).2⟩

/-- Claim C4 (code bug): `makeApiRequest` does not settle exactly once.
On every terminal error path the catch block calls
`handleApiError(error)`, which always throws, before `reject(error)` —
so `reject` is dead code, the thrown error becomes an unhandled
rejection inside the async `operation.attempt` callback, and the promise
returned by `makeApiRequest` stays pending forever instead of rejecting.
Evaluated here on an operation that always fails with retries exhausted
immediately. -/
theorem c4_terminal_error_never_settles :
    (∀ (jp : String → Except String JsValue)
       (schema : Option (List (String × JsValue))) (e : JsError),
       ∃ m, makeApiRequest jp (fun _ => .error e) (some 0) schema = (1, .unsettled m)) ∧
    makeApiRequest jp0 (fun _ => .error errBoom) (some 0) none
      = (1, .unsettled "Error: boom") := by
  constructor
  · intro jp schema e
    obtain ⟨m, hm, _⟩ := terminalOutcome_unsettled e
    refine ⟨m, ?_⟩
    unfold makeApiRequest
    show runAttempts jp (fun _ => Except.error e) schema 0 1 = (1, Outcome.unsettled m)
    rw [runAttempts_zero_error jp (fun _ => Except.error e) schema 1 e (by simp [attemptOnce]),
        hm]
  · rfl

/-- Claim C5: with `retries = 0` the operation runs exactly once — the
first attempt is the only attempt whatever happens — and any error of
the single attempt is terminal regardless of its kind (the loop never
re-attempts; it goes straight to the terminal branch with that error). -/
theorem c5_zero_retries_single_attempt
    (jp : String → Except String JsValue) (results : Nat → Except JsError JsValue)
    (schema : Option (List (String × JsValue))) :
    (makeApiRequest jp results (some 0) schema).1 = 1 ∧
    (∀ e, attemptOnce jp results schema 1 = .error e →
      (makeApiRequest jp results (some 0) schema).2 = terminalOutcome e) := by
  constructor
  · unfold makeApiRequest
    show (runAttempts jp results schema 0 1).1 = 1
    cases hat : attemptOnce jp results schema 1 with
    | ok v => rw [runAttempts_ok jp results schema 0 1 v hat]
    | error e => rw [runAttempts_zero_error jp results schema 1 e hat]
  · intro e hat
    unfold makeApiRequest
    show (runAttempts jp results schema 0 1).2 = terminalOutcome e
    rw [runAttempts_zero_error jp results schema 1 e hat]

/-- Claim C5, witness: a concrete always-failing operation under
`retries = 0` is attempted exactly once and its error is terminal. -/
theorem c5_witness :
    (makeApiRequest jp0 (fun _ => .error errBoom) (some 0) none).1 = 1 ∧
    (makeApiRequest jp0 (fun _ => .error errBoom) (some 0) none).2 = terminalOutcome errBoom :=
  ⟨(c5_zero_retries_single_attempt jp0 (fun _ => .error errBoom) none).1,
   (c5_zero_retries_single_attempt jp0 (fun _ => .error errBoom) none).2 errBoom rfl⟩

/-- Claim C6, counterexample: with `maxRetries = 1` and an operation
that always fails with HTTP 429 (a retryable kind), the call makes the
budgeted 2 attempts but then does not reject with the last error: the
outcome is an unsettled promise, because `handleApiError` throws before
`reject` can run. -/
theorem c6_counterexample :
    makeApiRequest jp0 (fun _ => .error err429) (some 1) none
      = (2, .unsettled "API Error: 429 - Unknown error") := rfl

/-- Claim C6, amended: for every `N`, with `retries = N` and an
operation that always fails, the operation is attempted exactly `N + 1`
times; the call then reaches the terminal branch carrying the last
attempt's error, where the thrown message leaves the promise permanently
unsettled instead of rejecting. -/
theorem c6_amended_retry_budget (N : Nat) (errf : Nat → JsError)
    (jp : String → Except String JsValue) (schema : Option (List (String × JsValue))) :
    makeApiRequest jp (fun i => .error (errf i)) (some N) schema
      = (N + 1, terminalOutcome (errf (N + 1))) ∧
    ∃ m, terminalOutcome (errf (N + 1)) = .unsettled m := by
  constructor
  · unfold makeApiRequest
    show runAttempts jp (fun i => Except.error (errf i)) schema N 1 = _
    rw [runAttempts_always_error jp schema errf N 1]
    have h1 : 1 + N = N + 1 := Nat.add_comm 1 N
    rw [h1]
  · obtain ⟨m, hm, _⟩ := terminalOutcome_unsettled (errf (N + 1))
    exact ⟨m, hm⟩

/-- Claim C7: transforming the Scenario A input yields exactly the same
object extended with the derived feedback array, which contains a
`Matching Skills` entry describing `React` and a `Missing Skills` entry
describing `Python`. -/
theorem c7_scenario_a_transform :
    transformOpenAIResponse scenarioARaw = .ok scenarioAResult ∧
    scenarioAResult.feedback =
      [{ title := "Matching Skills", description := "React" },
       { title := "Missing Skills", description := "Python" },
       { title := "Analysis Part 1", description := "Good fit." }] ∧
    FeedbackItem.mk "Matching Skills" "React" ∈ scenarioAResult.feedback ∧
    FeedbackItem.mk "Missing Skills" "Python" ∈ scenarioAResult.feedback := by
  refine ⟨rfl, rfl, ?_, ?_⟩ <;> simp [scenarioAResult]

/-- Claim C8: whenever `formatResponse` succeeds with a schema, the
output object carries exactly the schema's declared keys — a key is
present in the output if and only if it is declared — so an extra
undeclared field of the raw response is dropped. -/
theorem c8_exact_schema_keys
    (jp : String → Except String JsValue) (raw : JsValue)
    (schemaFields : List (String × JsValue)) (out : JsValue)
    (h : formatResponse jp raw (some schemaFields) = .ok out) :
    ∃ outFields, out = .vObj outFields ∧
      ∀ q, (lookupField outFields q).isSome = true ↔ q ∈ schemaFields.map Prod.fst := by
  obtain ⟨parsed, outFields, hbuild, hout⟩ := formatResponse_ok_schema jp raw schemaFields out h
  refine ⟨outFields, hout, fun q => ?_⟩
  have := buildFromSchema_keys parsed (schemaFields.map Prod.fst) [] outFields hbuild q
  simpa [lookupField] using this

/-- Claim C8, witness: formatting a raw response with an extra
undeclared field succeeds and the formatted output holds exactly the
declared key, the extra field being absent. -/
theorem c8_witness :
    formatResponse jp0 (.vObj [("a", .vNum 1), ("extra", .vNum 2)]) (some schemaA)
      = .ok (.vObj [("a", .vNum 1)]) ∧
    (∃ outFields, JsValue.vObj [("a", .vNum 1)] = .vObj outFields ∧
      ∀ q, (lookupField outFields q).isSome = true ↔ q ∈ schemaA.map Prod.fst) :=
  ⟨rfl, c8_exact_schema_keys jp0 (.vObj [("a", .vNum 1), ("extra", .vNum 2)]) schemaA
    (.vObj [("a", .vNum 1)]) rfl⟩

/-- Claim C9, witness: running the heap-model formatter on a concrete
one-object store leaves the input response object unchanged. -/
theorem c9_witness :
    ((formatResponseHeap jpH0 store0 (.ref 0) (some ["score"])).1).objs.get? 0
      = store0.objs.get? 0 :=
  formatResponseHeap_preserves_input jpH0
    (fun _ _ _ _ => rfl) (fun _ _ => le_refl _) store0 (.ref 0) (some ["score"]) 0
    (by decide)

/-- Claim C10: `validateApiKey` returns `true` for every input — the
empty string, null, and strings of any format included — so client-side
validation never rejects a credential. -/
theorem c10_validate_api_key_always_true :
    (∀ k, validateApiKey k = true) ∧
    validateApiKey (.vStr "") = true ∧
    validateApiKey .vNull = true ∧
    validateApiKey (.vStr "not-even-close-to-a-key-format") = true :=
  ⟨fun _ => rfl, rfl, rfl, rfl⟩

end ATS
